import Mathlib

/-!
Shallow embedding of `docker/cleanup.py` (the container shutdown Reaper of
pyrex): the shutdown-schedule parsing and normalization done in `main`, the
polling wait loop `wait_for_processes` with its process-table scan, signal
escalation and cancellation handling, and the two-phase structure of `main`.

Real time is modelled by supplying, for every poll iteration, the values the
three `time.monotonic()` calls of that iteration read; the process table is
modelled by supplying, for every iteration, the list of `/proc/<pid>/stat`
entries the scan encounters, each of which may fail to read (the process
disappeared), read back empty, or parse to a pid and state.  Interrupt-signal
delivery is an input bit per iteration; the handler only has an effect once
the handlers have been installed and unmasked (`signals_enabled`).  The loop
runs over a finite trace of such iteration environments; exhausting the trace
before the loop returns is reported as `none` / `retd = none`.
-/

attribute [local semireducible] Rat.add Rat.mul Rat.inv Rat.sub Rat.ofScientific

namespace Cleanup

/-- Linux process states considered "already dead"; such processes do not
cause the script to wait (`ALREADY_DEAD_STATES` in cleanup.py):
Z = zombie, X = dead (Linux 2.6.0 onward), x = dead (2.6.33 to 3.13). -/
def ALREADY_DEAD_STATES : List String := ["Z", "X", "x"]

/-- Number of shutdown wait phases. -/
def EXIT_WAIT_PHASES : Nat := 2

/-- Number of seconds after which the user is warned and interrupt signals
are enabled (unmasked). -/
def SIGNAL_ENABLE_WAIT_TIME : ℚ := 10

/-- Wait 0.5 seconds for normal exit and forever for sigterm; a negative
number means "wait forever". -/
def WAIT_FOREVER_DEFAULT : List ℚ := [1/2, -1]

/-- By default, wait forever. -/
def DEFAULT_WAIT_TIME : String := "-1"

/-- Signal number of SIGINT. -/
def SIGINT : Nat := 2

/-- Signal number of SIGQUIT. -/
def SIGQUIT : Nat := 3

/-- Signal number of SIGTERM. -/
def SIGTERM : Nat := 15

/-- Signals which will interrupt cleanup if it is waiting. -/
def INTERRUPT_SIGNALS : List Nat := [SIGINT, SIGQUIT, SIGTERM]

/-- Python `str.split(sep)` for a one-character separator, on character
lists: splitting the empty string yields one empty field. -/
def splitOnChar (c : Char) : List Char → List (List Char)
  | [] => [[]]
  | x :: xs =>
    let r := splitOnChar c xs
    if x = c then [] :: r
    else
      match r with
      | [] => [[x]]
      | y :: ys => (x :: y) :: ys

/-- A digits-only numeral as a natural number; `none` if the character list
is empty or contains a non-digit. -/
def parseNatDigits (cs : List Char) : Option Nat :=
  if cs ≠ [] ∧ cs.all Char.isDigit then
    some (cs.foldl (fun a c => 10 * a + (c.toNat - 48)) 0)
  else none

/-- Unsigned part of Python `float()` on a plain decimal literal: an integer
part, optionally followed by `.` and a fractional part (either part may be
empty but not both), as an exact rational. -/
def pyFloatBody (body : List Char) : Option ℚ :=
  match splitOnChar '.' body with
  | [ip] => (parseNatDigits ip).map (fun n => (n : ℚ))
  | [ip, fp] =>
    match parseNatDigits ip, parseNatDigits fp with
    | some n, some f => some ((n : ℚ) + (f : ℚ) / ((10 : ℚ) ^ fp.length))
    | some n, none => if fp = [] then some ((n : ℚ)) else none
    | none, some f => if ip = [] then some ((f : ℚ) / ((10 : ℚ) ^ fp.length)) else none
    | none, none => none
  | _ => none

/-- Python `float()` restricted to plain decimal literals with an optional
sign, the grammar wait-time configuration strings use; `none` models the
`ValueError` path. -/
def pyFloat (s : String) : Option ℚ :=
  match s.toList with
  | '-' :: body => (pyFloatBody body).map Neg.neg
  | '+' :: body => pyFloatBody body
  | body => pyFloatBody body

/-- Computes `[float(w) for w in exit_wait.split(',')]`; `none` models the caught
`ValueError`, which makes `main` return 1. -/
def parseExitWaitTimes (exit_wait : String) : Option (List ℚ) :=
  (splitOnChar ',' exit_wait.toList).mapM (fun cs => pyFloat (String.mk cs))

/-- Normalization of a single wait value in `main`: a single negative value
becomes `WAIT_FOREVER_DEFAULT`, a single non-negative value is divided
evenly over all phases; anything else is left as parsed. -/
def normalizeExitWait (ts : List ℚ) : List ℚ :=
  match ts with
  | [t] =>
    if t < 0 then WAIT_FOREVER_DEFAULT
    else List.replicate EXIT_WAIT_PHASES (t / (EXIT_WAIT_PHASES : ℚ))
  | _ => ts

/-- The shutdown schedule `main` computes from `PYREX_CLEANUP_EXIT_WAIT`:
parse the comma-separated floats, normalize a single value, and require
exactly `EXIT_WAIT_PHASES` entries.  `none` covers both `return 1`
configuration-error paths of `main`. -/
def computeSchedule (exit_wait : String) : Option (List ℚ) :=
  match parseExitWaitTimes exit_wait with
  | none => none
  | some ts0 =>
    if (normalizeExitWait ts0).length = EXIT_WAIT_PHASES then some (normalizeExitWait ts0)
    else none

/-- Result of reading and parsing one `/proc/<pid>/stat` file. -/
inductive StatRead where
  | ioErr : StatRead
  | emptyData : StatRead
  | ok : Nat → String → StatRead
deriving DecidableEq

/-- One stat file the scan encounters: the stat read outcome, and the
cmdline read outcome (`none` models an `IOError` reading cmdline). -/
structure ProcFile where
  stat : StatRead
  cmdline : Option String
deriving DecidableEq

/-- The description string `"PID %d (%s): %s"` built for each process. -/
def procDescription (pid : Nat) (state command : String) : String :=
  "PID " ++ toString pid ++ " (" ++ state ++ "): " ++ command

/-- Observable events of a Reaper run, in program order. -/
inductive Event where
  | killSent : Nat → Nat → Event
  | warnInterrupt : Event
  | warnStillWaiting : Nat → Event
  | enableSignals : Event
  | warnLeftRunning : Nat → Event
deriving DecidableEq

/-- Tests that `e` is `os.kill(pid, _)` for this `pid`. -/
def isKillOf (pid : Nat) : Event → Bool
  | Event.killSent p _ => p = pid
  | _ => false

/-- Tests that `e` is an `os.kill` event. -/
def isKill : Event → Bool
  | Event.killSent _ _ => true
  | _ => false

/-- Tests that `e` is the 10-second "Waiting for N processes to exit..." warning. -/
def isWarnStill : Event → Bool
  | Event.warnStillWaiting _ => true
  | _ => false

/-- The module-level globals of cleanup.py. -/
structure GState where
  signals_enabled : Bool
  keep_waiting : Bool
  keep_waiting_notified : Bool
deriving DecidableEq

/-- Initial values of the globals at module load. -/
def initGState : GState :=
  { signals_enabled := false, keep_waiting := true, keep_waiting_notified := false }

/-- The signal handler installed at escalation: sets `keep_waiting` false. -/
def stop_process_waiting (g : GState) : GState := { g with keep_waiting := false }

/-- Effect of interrupt-signal delivery between two poll checks: the handler
runs only once installed and unmasked, i.e. once `signals_enabled`. -/
def deliverSignals (delivered : Bool) (g : GState) : GState :=
  if delivered && g.signals_enabled then stop_process_waiting g else g

/-- Result of processing one stat file, or of a whole scan. -/
structure ScanOut where
  killed : Finset Nat
  still : List (Nat × String)
  events : List Event
deriving DecidableEq

/-- Result of processing one stat file. -/
structure ProcOut where
  killed : Finset Nat
  entry : Option (Nat × String)
  events : List Event
deriving DecidableEq

/-- Per-stat-file body of the scan in `wait_for_processes`.  An `IOError`
reading the stat file, or empty stat data, silently skips the entry.  An
`IOError` reading cmdline leaves the command string empty.  A process whose
state is already dead, or whose pid is the Reaper's own or 1, is neither
signaled nor recorded as still running.  Otherwise, if a signal was
requested and the pid was not signaled before, the signal is sent and the
pid recorded in `killed`; the process is recorded as still running. -/
def procOne (my_pid : Nat) (sig : Option Nat) (killed : Finset Nat) (f : ProcFile) :
    ProcOut :=
  match f.stat with
  | StatRead.ioErr => ⟨killed, none, []⟩
  | StatRead.emptyData => ⟨killed, none, []⟩
  | StatRead.ok pid state =>
    let command := f.cmdline.getD ""
    let desc := procDescription pid state command
    if state ∉ ALREADY_DEAD_STATES ∧ pid ≠ my_pid ∧ pid ≠ 1 then
      match sig with
      | some s =>
        if pid ∉ killed then
          ⟨insert pid killed, some (pid, desc), [Event.killSent pid s]⟩
        else ⟨killed, some (pid, desc), []⟩
      | none => ⟨killed, some (pid, desc), []⟩
    else ⟨killed, none, []⟩

/-- One full scan of the process table: fold `procOne` over the stat files,
accumulating the killed set, the `still_running` map in scan order, and the
kill events in order. -/
def scanProc (my_pid : Nat) (sig : Option Nat) (killed : Finset Nat) :
    List ProcFile → ScanOut
  | [] => ⟨killed, [], []⟩
  | f :: rest =>
    let o1 := procOne my_pid sig killed f
    let o2 := scanProc my_pid sig o1.killed rest
    ⟨o2.killed, o1.entry.toList ++ o2.still, o1.events ++ o2.events⟩

/-- Does this stat-file entry present `pid` as a live, signalable process
(parsed, not already dead, not the Reaper itself, not pid 1)? -/
def liveEntry (my_pid pid : Nat) (f : ProcFile) : Bool :=
  match f.stat with
  | StatRead.ok p st =>
    decide (p = pid ∧ st ∉ ALREADY_DEAD_STATES ∧ p ≠ my_pid ∧ p ≠ 1)
  | _ => false

/-- The environment one poll iteration observes: the process-table snapshot,
whether an interrupt signal was delivered since the previous iteration's
`keep_waiting` check, and the three `time.monotonic()` readings of this
iteration (timeout check, signal-enable check, throttle check). -/
structure IterEnv where
  snapshot : List ProcFile
  sigDelivered : Bool
  tTimeout : ℚ
  tSignal : ℚ
  tThrottle : ℚ
deriving DecidableEq

/-- Outcome of running the wait loop over a finite trace of iteration
environments: `retd = some still` when the loop returned with that
`still_running` map; `retd = none` when the trace ended with the loop still
polling. -/
structure WaitOut where
  retd : Option (List (Nat × String))
  g : GState
  killed : Finset Nat
  sleep_time : ℚ
  events : List Event
deriving DecidableEq

/-- The `while True` loop of `wait_for_processes`: scan, then in order the
no-survivor return, the timeout return, the cancellation return (warning, once,
when not yet notified), the one-time signal escalation, the sleep throttle. -/
def waitLoop (my_pid : Nat) (sig : Option Nat) (max_wait start_time : ℚ) :
    List IterEnv → GState → Finset Nat → ℚ → List Event → WaitOut
  | [], g, killed, sleep_time, evs => ⟨none, g, killed, sleep_time, evs⟩
  | env :: rest, g, killed, sleep_time, evs =>
    let g1 := deliverSignals env.sigDelivered g
    let so := scanProc my_pid sig killed env.snapshot
    let evs1 := evs ++ so.events
    if so.still = [] then ⟨some so.still, g1, so.killed, sleep_time, evs1⟩
    else if 0 ≤ max_wait ∧ start_time + max_wait < env.tTimeout then
      ⟨some so.still, g1, so.killed, sleep_time, evs1⟩
    else if g1.keep_waiting = false then
      if g1.keep_waiting_notified = false then
        ⟨some so.still, { g1 with keep_waiting_notified := true }, so.killed, sleep_time,
          evs1 ++ [Event.warnInterrupt]⟩
      else ⟨some so.still, g1, so.killed, sleep_time, evs1⟩
    else
      let g2 :=
        if g1.signals_enabled = false ∧ start_time + SIGNAL_ENABLE_WAIT_TIME < env.tSignal then
          { g1 with signals_enabled := true }
        else g1
      let evs2 :=
        if g1.signals_enabled = false ∧ start_time + SIGNAL_ENABLE_WAIT_TIME < env.tSignal then
          evs1 ++ [Event.warnStillWaiting so.still.length, Event.enableSignals]
        else evs1
      let sleep1 := if start_time + 2 < env.tThrottle then (1 : ℚ)/2 else sleep_time
      waitLoop my_pid sig max_wait start_time rest g2 so.killed sleep1 evs2

/-- The inputs one call of `wait_for_processes` draws from the world: the
`time.monotonic()` reading taken at entry, and the per-iteration inputs. -/
structure PhaseEnv where
  start_time : ℚ
  iters : List IterEnv
deriving DecidableEq

/-- The call `wait_for_processes(sig, max_wait)`: a fresh empty `killed_processes`
set and an initial sleep time of 0.01 seconds, then the poll loop. -/
def wait_for_processes (my_pid : Nat) (sig : Option Nat) (max_wait : ℚ)
    (g : GState) (penv : PhaseEnv) : WaitOut :=
  waitLoop my_pid sig max_wait penv.start_time penv.iters g ∅ (1/100) []

/-- What a completed Reaper run reports: the processes left running, the
exit code returned to the caller, and the logged/sent events in order. -/
structure RunOutcome where
  leftRunning : List (Nat × String)
  exitCode : Int
  events : List Event
deriving DecidableEq

/-- Result of `main`: a configuration error (exit code 1, before any
waiting), or a completed run. -/
inductive MainResult where
  | configError : MainResult
  | ok : RunOutcome → MainResult
deriving DecidableEq

/-- The exit code `main` returns for a given result. -/
def mainExitCode : MainResult → Int
  | MainResult.configError => 1
  | MainResult.ok o => o.exitCode

/-- The world inputs of one whole Reaper run: the Reaper's own pid and the
inputs of the two wait phases. -/
structure RunEnv where
  my_pid : Nat
  phase1 : PhaseEnv
  phase2 : PhaseEnv
deriving DecidableEq

/-- The wait phases of `main`: wait for natural exit with no signal, and if
processes survive, wait again sending SIGTERM; warn about processes left
running; return the exit code passed as the argument.  `none` means a
phase's iteration trace ended with its loop still polling. -/
def mainPhases (arg : Int) (renv : RunEnv) (t1 t2 : ℚ) : Option MainResult :=
  match (wait_for_processes renv.my_pid none t1 initGState renv.phase1).retd with
  | none => none
  | some still1 =>
    if still1 = [] then
      some (MainResult.ok ⟨still1, arg,
        (wait_for_processes renv.my_pid none t1 initGState renv.phase1).events⟩)
    else
      match (wait_for_processes renv.my_pid (some SIGTERM) t2
          (wait_for_processes renv.my_pid none t1 initGState renv.phase1).g
          renv.phase2).retd with
      | none => none
      | some still2 =>
        some (MainResult.ok ⟨still2, arg,
          (wait_for_processes renv.my_pid none t1 initGState renv.phase1).events ++
            (wait_for_processes renv.my_pid (some SIGTERM) t2
              (wait_for_processes renv.my_pid none t1 initGState renv.phase1).g
              renv.phase2).events ++
            (if still2 = [] then [] else [Event.warnLeftRunning still2.length])⟩)

/-- The entry point `main`: compute the schedule (configuration errors return before any
waiting), then run the two wait phases via `mainPhases`. -/
def main (exit_wait : String) (arg : Int) (renv : RunEnv) : Option MainResult :=
  match computeSchedule exit_wait with
  | none => some MainResult.configError
  | some ts =>
    match ts with
    | [t1, t2] => mainPhases arg renv t1 t2
    | _ => none

/-- Tests that `e` is the enable-signals action. -/
def isEnable : Event → Bool
  | Event.enableSignals => true
  | _ => false

/-- Tests that `e` is the "Waiting interrupted" warning. -/
def isWarnInterrupted : Event → Bool
  | Event.warnInterrupt => true
  | _ => false

/-- A live sleeping process, pid 5, command `sleep`. -/
def pf5 : ProcFile := ⟨StatRead.ok 5 "S", some "sleep"⟩

/-- A zombie, pid 6. -/
def pfZ : ProcFile := ⟨StatRead.ok 6 "Z", some "defunct"⟩

/-- A natural-exit-phase poll 11 seconds in: past the escalation threshold. -/
def envA : IterEnv := ⟨[pf5], false, 11, 11, 11⟩

/-- A poll at 12 seconds, right after an interrupt-signal delivery. -/
def envB : IterEnv := ⟨[pf5], true, 12, 12, 12⟩

/-- One terminate-phase poll at 13 seconds. -/
def envC : IterEnv := ⟨[pf5], false, 13, 13, 13⟩

/-- Natural-exit phase of the cancelled run: threshold passed, then SIGINT. -/
def ph1 : PhaseEnv := ⟨0, [envA, envB]⟩

/-- Terminate phase of the cancelled run. -/
def ph2 : PhaseEnv := ⟨12, [envC]⟩

/-- A run cancelled during the natural-exit phase with pid 5 still running. -/
def renvC1 : RunEnv := ⟨2, ph1, ph2⟩

/-- A poll that finds no waitable process. -/
def envEmpty : IterEnv := ⟨[], false, 1, 1, 1⟩

/-- A phase whose first poll already finds nothing running. -/
def phEmpty : PhaseEnv := ⟨0, [envEmpty]⟩

/-- A run in which everything has already exited. -/
def renvQuiet : RunEnv := ⟨2, phEmpty, phEmpty⟩

/-- Natural-exit phase that times out at its first poll under schedule "10". -/
def phN : PhaseEnv := ⟨0, [⟨[pf5], false, 6, 6, 6⟩]⟩

/-- Terminate phase that times out at its first poll under schedule "10". -/
def phT : PhaseEnv := ⟨6, [⟨[pf5], false, 12, 12, 12⟩]⟩

/-- A run with one process that ignores SIGTERM, schedule "10". -/
def renvT : RunEnv := ⟨2, phN, phT⟩

/-- One poll seeing only a zombie. -/
def phZ : PhaseEnv := ⟨0, [⟨[pfZ], false, 1, 1, 1⟩]⟩

theorem procOne_none_killed (m : Nat) (killed : Finset Nat) (f : ProcFile) :
    (procOne m none killed f).killed = killed := by
  unfold procOne
  cases f.stat with
  | ioErr => rfl
  | emptyData => rfl
  | ok pid st => dsimp only; split <;> rfl

theorem procOne_none_events (m : Nat) (killed : Finset Nat) (f : ProcFile) :
    (procOne m none killed f).events = [] := by
  unfold procOne
  cases f.stat with
  | ioErr => rfl
  | emptyData => rfl
  | ok pid st => dsimp only; split <;> rfl

theorem procOne_countKill (m : Nat) (sig : Option Nat) (killed : Finset Nat) (f : ProcFile)
    (p : Nat) :
    (procOne m sig killed f).events.countP (isKillOf p) =
      if sig.isSome = true ∧ liveEntry m p f = true ∧ p ∉ killed then 1 else 0 := by
  unfold procOne liveEntry
  cases f.stat with
  | ioErr => simp
  | emptyData => simp
  | ok pid st =>
    dsimp only
    by_cases hl : st ∉ ALREADY_DEAD_STATES ∧ pid ≠ m ∧ pid ≠ 1
    · simp only [if_pos hl]
      cases sig with
      | none => simp
      | some s =>
        by_cases hk : pid ∉ killed
        · simp only [if_pos hk]
          by_cases hp : p = pid
          · subst hp
            simp [isKillOf, List.countP, List.countP.go, hl, hk]
          · simp [isKillOf, List.countP, List.countP.go, Ne.symm hp, hp]
        · simp only [if_neg hk]
          by_cases hp : p = pid
          · subst hp; simp [hk]
          · simp [hp, Ne.symm hp]
    · simp only [if_neg hl]
      simp only [List.countP_nil]
      by_cases hp : p = pid
      · subst hp; simp [hl]
      · simp [hp, Ne.symm hp]

theorem procOne_killed_mem (m : Nat) (sig : Option Nat) (killed : Finset Nat) (f : ProcFile)
    (q : Nat) :
    q ∈ (procOne m sig killed f).killed ↔
      q ∈ killed ∨ (sig.isSome = true ∧ liveEntry m q f = true ∧ q ∉ killed) := by
  unfold procOne liveEntry
  cases f.stat with
  | ioErr => simp
  | emptyData => simp
  | ok pid st =>
    dsimp only
    by_cases hl : st ∉ ALREADY_DEAD_STATES ∧ pid ≠ m ∧ pid ≠ 1
    · simp only [if_pos hl]
      cases sig with
      | none => simp
      | some s =>
        by_cases hk : pid ∉ killed
        · simp only [if_pos hk, Finset.mem_insert]
          by_cases hq : q = pid
          · subst hq; simp [hl, hk]
          · simp [hq, Ne.symm hq]
        · simp only [if_neg hk]
          by_cases hq : q = pid
          · subst hq; simp [hk]
          · simp [hq, Ne.symm hq]
    · simp only [if_neg hl]
      by_cases hq : q = pid
      · subst hq; simp [hl]
      · simp [hq, Ne.symm hq]

theorem procOne_entry_live (m : Nat) (sig : Option Nat) (killed : Finset Nat) (f : ProcFile)
    (p : Nat) :
    (∃ d, (procOne m sig killed f).entry = some (p, d)) ↔ liveEntry m p f = true := by
  unfold procOne liveEntry
  cases f.stat with
  | ioErr => simp
  | emptyData => simp
  | ok pid st =>
    dsimp only
    by_cases hl : st ∉ ALREADY_DEAD_STATES ∧ pid ≠ m ∧ pid ≠ 1
    · simp only [if_pos hl]
      by_cases hp : p = pid
      · subst hp
        cases sig with
        | none => simp [hl]
        | some s => by_cases hk : p ∈ killed <;> simp [hk, hl]
      · cases sig with
        | none => simp [hp, Ne.symm hp]
        | some s => by_cases hk : pid ∈ killed <;> simp [hk, hp, Ne.symm hp]
    · simp only [if_neg hl]
      by_cases hp : p = pid
      · subst hp; simp [hl]
      · simp [hp, Ne.symm hp]

theorem scanProc_none_killed (m : Nat) (killed : Finset Nat) (snap : List ProcFile) :
    (scanProc m none killed snap).killed = killed := by
  induction snap generalizing killed with
  | nil => rfl
  | cons f rest ih =>
    show (scanProc m none (procOne m none killed f).killed rest).killed = killed
    rw [ih, procOne_none_killed]

theorem scanProc_none_events (m : Nat) (killed : Finset Nat) (snap : List ProcFile) :
    (scanProc m none killed snap).events = [] := by
  induction snap generalizing killed with
  | nil => rfl
  | cons f rest ih =>
    show (procOne m none killed f).events ++
        (scanProc m none (procOne m none killed f).killed rest).events = []
    rw [procOne_none_events, ih]
    rfl

theorem scanProc_countKill (m : Nat) (sig : Option Nat) (killed : Finset Nat)
    (snap : List ProcFile) (p : Nat) :
    (scanProc m sig killed snap).events.countP (isKillOf p) =
      if sig.isSome = true ∧ (∃ f ∈ snap, liveEntry m p f = true) ∧ p ∉ killed then 1
      else 0 := by
  induction snap generalizing killed with
  | nil => simp [scanProc]
  | cons f rest ih =>
    have hmem := procOne_killed_mem m sig killed f p
    show ((procOne m sig killed f).events ++
        (scanProc m sig (procOne m sig killed f).killed rest).events).countP (isKillOf p) = _
    rw [List.countP_append, procOne_countKill, ih]
    by_cases hs : sig.isSome = true
    · by_cases hf : liveEntry m p f = true
      · by_cases hk : p ∈ killed
        · have hk1 : p ∈ (procOne m sig killed f).killed := hmem.2 (Or.inl hk)
          simp [hs, hf, hk, hk1]
        · have hk1 : p ∈ (procOne m sig killed f).killed := hmem.2 (Or.inr ⟨hs, hf, hk⟩)
          simp [hs, hf, hk, hk1]
      · by_cases hk : p ∈ killed
        · have hk1 : p ∈ (procOne m sig killed f).killed := hmem.2 (Or.inl hk)
          simp [hs, hf, hk, hk1]
        · have hk1 : p ∉ (procOne m sig killed f).killed := by
            intro h
            rcases hmem.1 h with h' | ⟨_, hl, _⟩
            · exact hk h'
            · exact hf hl
          simp [hs, hf, hk, hk1]
    · simp [hs]

theorem scanProc_killed_mem (m : Nat) (sig : Option Nat) (killed : Finset Nat)
    (snap : List ProcFile) (q : Nat) :
    q ∈ (scanProc m sig killed snap).killed ↔
      q ∈ killed ∨ (sig.isSome = true ∧ (∃ f ∈ snap, liveEntry m q f = true) ∧ q ∉ killed) := by
  induction snap generalizing killed with
  | nil => simp [scanProc]
  | cons f rest ih =>
    show q ∈ (scanProc m sig (procOne m sig killed f).killed rest).killed ↔ _
    rw [ih, procOne_killed_mem]
    simp only [List.mem_cons, exists_eq_or_imp]
    by_cases ha : q ∈ killed
    · by_cases hs : sig.isSome = true <;> by_cases hf : liveEntry m q f = true <;> tauto
    · by_cases hs : sig.isSome = true <;> by_cases hf : liveEntry m q f = true <;> tauto

theorem scanProc_killed_subset (m : Nat) (sig : Option Nat) (killed : Finset Nat)
    (snap : List ProcFile) :
    killed ⊆ (scanProc m sig killed snap).killed := by
  intro q hq
  exact (scanProc_killed_mem m sig killed snap q).2 (Or.inl hq)

theorem scanProc_still_mem (m : Nat) (sig : Option Nat) (killed : Finset Nat)
    (snap : List ProcFile) (p : Nat) :
    (∃ d, (p, d) ∈ (scanProc m sig killed snap).still) ↔
      ∃ f ∈ snap, liveEntry m p f = true := by
  induction snap generalizing killed with
  | nil => simp [scanProc]
  | cons f rest ih =>
    show (∃ d, (p, d) ∈ (procOne m sig killed f).entry.toList ++
        (scanProc m sig (procOne m sig killed f).killed rest).still) ↔ _
    simp only [List.mem_append, Option.mem_toList, Option.mem_def, exists_or]
    rw [procOne_entry_live, ih]
    simp only [List.mem_cons, exists_eq_or_imp]

/-- A stat file whose read raises IOError is skipped: the scan of the rest is
unchanged. -/
theorem scanProc_ioErr (m : Nat) (sig : Option Nat) (killed : Finset Nat)
    (c : Option String) (rest : List ProcFile) :
    scanProc m sig killed (⟨StatRead.ioErr, c⟩ :: rest) = scanProc m sig killed rest := rfl

/-- A stat file that reads back empty is skipped. -/
theorem scanProc_emptyData (m : Nat) (sig : Option Nat) (killed : Finset Nat)
    (c : Option String) (rest : List ProcFile) :
    scanProc m sig killed (⟨StatRead.emptyData, c⟩ :: rest) = scanProc m sig killed rest := rfl

/-- A cmdline read failure is the same as reading an empty command line. -/
theorem procOne_cmdline_ioErr (m : Nat) (sig : Option Nat) (killed : Finset Nat)
    (pid : Nat) (st : String) :
    procOne m sig killed ⟨StatRead.ok pid st, none⟩ =
      procOne m sig killed ⟨StatRead.ok pid st, some ""⟩ := rfl

theorem waitLoop_evs (m : Nat) (sig : Option Nat) (mw t : ℚ) (iters : List IterEnv)
    (g : GState) (k : Finset Nat) (sl : ℚ) (evs : List Event) :
    waitLoop m sig mw t iters g k sl evs =
      { waitLoop m sig mw t iters g k sl [] with
        events := evs ++ (waitLoop m sig mw t iters g k sl []).events } := by
  induction iters generalizing g k sl evs with
  | nil => simp [waitLoop]
  | cons env rest ih =>
    simp only [waitLoop]
    split
    · simp
    · split
      · simp
      · split
        · split
          · simp
          · simp
        · split
          · rw [ih]
            conv_rhs => rw [ih]
            simp
          · rw [ih]
            conv_rhs => rw [ih]
            simp

theorem deliverSignals_enabled (d : Bool) (g : GState) :
    (deliverSignals d g).signals_enabled = g.signals_enabled := by
  unfold deliverSignals stop_process_waiting
  split <;> rfl

theorem deliverSignals_notified (d : Bool) (g : GState) :
    (deliverSignals d g).keep_waiting_notified = g.keep_waiting_notified := by
  unfold deliverSignals stop_process_waiting
  split <;> rfl

theorem deliverSignals_kwFalse (d : Bool) (g : GState) (h : g.keep_waiting = false) :
    (deliverSignals d g).keep_waiting = false := by
  unfold deliverSignals stop_process_waiting
  split <;> simp [h]

theorem waitLoop_killed_mono (m : Nat) (sig : Option Nat) (mw t : ℚ) (iters : List IterEnv)
    (g : GState) (k : Finset Nat) (sl : ℚ) (evs : List Event) :
    k ⊆ (waitLoop m sig mw t iters g k sl evs).killed := by
  induction iters generalizing g k sl evs with
  | nil => exact Finset.Subset.refl k
  | cons env rest ih =>
    simp only [waitLoop]
    split
    · exact scanProc_killed_subset m sig k env.snapshot
    · split
      · exact scanProc_killed_subset m sig k env.snapshot
      · split
        · split
          · exact scanProc_killed_subset m sig k env.snapshot
          · exact scanProc_killed_subset m sig k env.snapshot
        · split
          · exact (scanProc_killed_subset m sig k env.snapshot).trans (ih _ _ _ _)
          · exact (scanProc_killed_subset m sig k env.snapshot).trans (ih _ _ _ _)

theorem waitLoop_enabled_mono (m : Nat) (sig : Option Nat) (mw t : ℚ) (iters : List IterEnv)
    (g : GState) (k : Finset Nat) (sl : ℚ) (evs : List Event)
    (h : g.signals_enabled = true) :
    (waitLoop m sig mw t iters g k sl evs).g.signals_enabled = true := by
  induction iters generalizing g k sl evs with
  | nil => exact h
  | cons env rest ih =>
    have h1 : (deliverSignals env.sigDelivered g).signals_enabled = true := by
      rw [deliverSignals_enabled]; exact h
    simp only [waitLoop]
    split
    · exact h1
    · split
      · exact h1
      · split
        · split
          · exact h1
          · exact h1
        · split
          · exact ih _ _ _ _ (by simp)
          · exact ih _ _ _ _ h1

theorem waitLoop_notified_mono (m : Nat) (sig : Option Nat) (mw t : ℚ) (iters : List IterEnv)
    (g : GState) (k : Finset Nat) (sl : ℚ) (evs : List Event)
    (h : g.keep_waiting_notified = true) :
    (waitLoop m sig mw t iters g k sl evs).g.keep_waiting_notified = true := by
  induction iters generalizing g k sl evs with
  | nil => exact h
  | cons env rest ih =>
    have h1 : (deliverSignals env.sigDelivered g).keep_waiting_notified = true := by
      rw [deliverSignals_notified]; exact h
    simp only [waitLoop]
    split
    · exact h1
    · split
      · exact h1
      · split
        · split
          · simp
          · exact h1
        · split
          · exact ih _ _ _ _ (by simpa using h1)
          · exact ih _ _ _ _ h1

theorem procOne_events_isKill (m : Nat) (sig : Option Nat) (k : Finset Nat) (f : ProcFile) :
    ∀ e ∈ (procOne m sig k f).events, isKill e = true := by
  unfold procOne
  cases f.stat with
  | ioErr => simp
  | emptyData => simp
  | ok pid st =>
    dsimp only
    split
    · cases sig with
      | none => simp
      | some s => by_cases hk : pid ∈ k <;> simp [hk, isKill]
    · simp

theorem scanProc_events_isKill (m : Nat) (sig : Option Nat) (snap : List ProcFile) :
    ∀ (k : Finset Nat), ∀ e ∈ (scanProc m sig k snap).events, isKill e = true := by
  induction snap with
  | nil => simp [scanProc]
  | cons f rest ih =>
    intro k e he
    have he2 : e ∈ (procOne m sig k f).events ++
        (scanProc m sig (procOne m sig k f).killed rest).events := he
    rcases List.mem_append.1 he2 with h | h
    · exact procOne_events_isKill m sig k f e h
    · exact ih _ e h

theorem scanProc_countP_nonkill (P : Event → Bool) (hP : ∀ p s, P (Event.killSent p s) = false)
    (m : Nat) (sig : Option Nat) (k : Finset Nat) (snap : List ProcFile) :
    (scanProc m sig k snap).events.countP P = 0 := by
  rw [List.countP_eq_zero]
  intro e he
  have hk := scanProc_events_isKill m sig snap k e he
  cases e with
  | killSent p s => simp [hP p s]
  | warnInterrupt => simp [isKill] at hk
  | warnStillWaiting n => simp [isKill] at hk
  | enableSignals => simp [isKill] at hk
  | warnLeftRunning n => simp [isKill] at hk

theorem waitLoop_countKill_inKilled (m : Nat) (sig : Option Nat) (mw t : ℚ)
    (iters : List IterEnv) (p : Nat) :
    ∀ (g : GState) (k : Finset Nat) (sl : ℚ) (evs : List Event), p ∈ k →
      (waitLoop m sig mw t iters g k sl evs).events.countP (isKillOf p) =
        evs.countP (isKillOf p) := by
  induction iters with
  | nil => intro g k sl evs _; rfl
  | cons env rest ih =>
    intro g k sl evs hp
    have hscan : (scanProc m sig k env.snapshot).events.countP (isKillOf p) = 0 := by
      rw [scanProc_countKill]; simp [hp]
    have hsub : p ∈ (scanProc m sig k env.snapshot).killed :=
      scanProc_killed_subset m sig k env.snapshot hp
    simp only [waitLoop]
    split
    · simp [List.countP_append, hscan]
    · split
      · simp [List.countP_append, hscan]
      · split
        · split
          · simp [List.countP_append, hscan, isKillOf]
          · simp [List.countP_append, hscan]
        · split
          · rw [ih _ _ _ _ hsub]
            simp [List.countP_append, hscan, isKillOf]
          · rw [ih _ _ _ _ hsub]
            simp [List.countP_append, hscan]

theorem waitLoop_countKill_le (m : Nat) (sig : Option Nat) (mw t : ℚ)
    (iters : List IterEnv) (p : Nat) :
    ∀ (g : GState) (k : Finset Nat) (sl : ℚ) (evs : List Event),
      (waitLoop m sig mw t iters g k sl evs).events.countP (isKillOf p) ≤
        evs.countP (isKillOf p) + 1 := by
  induction iters with
  | nil =>
    intro g k sl evs
    exact Nat.le_succ _
  | cons env rest ih =>
    intro g k sl evs
    by_cases hc : sig.isSome = true ∧ (∃ f ∈ env.snapshot, liveEntry m p f = true) ∧ p ∉ k
    · have hscan : (scanProc m sig k env.snapshot).events.countP (isKillOf p) = 1 := by
        rw [scanProc_countKill]; simp [hc]
      have hkilled : p ∈ (scanProc m sig k env.snapshot).killed :=
        (scanProc_killed_mem m sig k env.snapshot p).2 (Or.inr hc)
      simp only [waitLoop]
      split
      · simp [List.countP_append, hscan]
      · split
        · simp [List.countP_append, hscan]
        · split
          · split
            · simp [List.countP_append, hscan, isKillOf]
            · simp [List.countP_append, hscan]
          · split
            · rw [waitLoop_countKill_inKilled m sig mw t rest p _ _ _ _ hkilled]
              simp [List.countP_append, hscan, isKillOf]
            · rw [waitLoop_countKill_inKilled m sig mw t rest p _ _ _ _ hkilled]
              simp [List.countP_append, hscan]
    · have hscan : (scanProc m sig k env.snapshot).events.countP (isKillOf p) = 0 := by
        rw [scanProc_countKill]; simp only [if_neg hc]
      simp only [waitLoop]
      split
      · simp [List.countP_append, hscan]
      · split
        · simp [List.countP_append, hscan]
        · split
          · split
            · simp [List.countP_append, hscan, isKillOf]
            · simp [List.countP_append, hscan]
          · split
            · refine le_trans (ih _ _ _ _) ?_
              simp [List.countP_append, hscan, isKillOf]
            · refine le_trans (ih _ _ _ _) ?_
              simp [List.countP_append, hscan]

theorem waitLoop_countKill_first (m s : Nat) (mw t : ℚ) (env : IterEnv)
    (rest : List IterEnv) (p : Nat) (g : GState) (k : Finset Nat) (sl : ℚ)
    (evs : List Event) (hlive : ∃ f ∈ env.snapshot, liveEntry m p f = true)
    (hk : p ∉ k) :
    (waitLoop m (some s) mw t (env :: rest) g k sl evs).events.countP (isKillOf p) =
      evs.countP (isKillOf p) + 1 := by
  have hscan : (scanProc m (some s) k env.snapshot).events.countP (isKillOf p) = 1 := by
    rw [scanProc_countKill]; simp [hlive, hk]
  have hkilled : p ∈ (scanProc m (some s) k env.snapshot).killed :=
    (scanProc_killed_mem m (some s) k env.snapshot p).2 (Or.inr ⟨rfl, hlive, hk⟩)
  simp only [waitLoop]
  split
  · simp [List.countP_append, hscan]
  · split
    · simp [List.countP_append, hscan]
    · split
      · split
        · simp [List.countP_append, hscan, isKillOf]
        · simp [List.countP_append, hscan]
      · split
        · rw [waitLoop_countKill_inKilled m (some s) mw t rest p _ _ _ _ hkilled]
          simp [List.countP_append, hscan, isKillOf]
        · rw [waitLoop_countKill_inKilled m (some s) mw t rest p _ _ _ _ hkilled]
          simp [List.countP_append, hscan]

theorem waitLoop_none_kills (m : Nat) (mw t : ℚ) (iters : List IterEnv) :
    ∀ (g : GState) (k : Finset Nat) (sl : ℚ) (evs : List Event),
      (waitLoop m none mw t iters g k sl evs).events.countP isKill =
        evs.countP isKill := by
  induction iters with
  | nil => intro g k sl evs; rfl
  | cons env rest ih =>
    intro g k sl evs
    have hscan : (scanProc m none k env.snapshot).events.countP isKill = 0 := by
      rw [scanProc_none_events]; rfl
    simp only [waitLoop]
    split
    · simp [List.countP_append, hscan]
    · split
      · simp [List.countP_append, hscan]
      · split
        · split
          · simp [List.countP_append, hscan, isKill]
          · simp [List.countP_append, hscan]
        · split
          · rw [ih]
            simp [List.countP_append, hscan, isKill]
          · rw [ih]
            simp [List.countP_append, hscan]

theorem isEnable_not_kill : ∀ p s, isEnable (Event.killSent p s) = false := by
  intro p s; rfl

theorem isWarnInterrupted_not_kill : ∀ p s, isWarnInterrupted (Event.killSent p s) = false := by
  intro p s; rfl

theorem isWarnStill_not_kill : ∀ p s, isWarnStill (Event.killSent p s) = false := by
  intro p s; rfl

theorem waitLoop_countEnable_enabled (m : Nat) (sig : Option Nat) (mw t : ℚ)
    (iters : List IterEnv) :
    ∀ (g : GState) (k : Finset Nat) (sl : ℚ) (evs : List Event), g.signals_enabled = true →
      (waitLoop m sig mw t iters g k sl evs).events.countP isEnable =
        evs.countP isEnable := by
  induction iters with
  | nil => intro g k sl evs _; rfl
  | cons env rest ih =>
    intro g k sl evs hg
    have hscan : (scanProc m sig k env.snapshot).events.countP isEnable = 0 :=
      scanProc_countP_nonkill isEnable isEnable_not_kill m sig k env.snapshot
    simp only [waitLoop]
    split
    · simp [List.countP_append, hscan]
    · split
      · simp [List.countP_append, hscan]
      · split
        · split
          · simp [List.countP_append, hscan, isEnable]
          · simp [List.countP_append, hscan]
        · split
          · rename_i hcond
            rw [deliverSignals_enabled, hg] at hcond
            exact absurd hcond.1 (by simp)
          · rw [ih _ _ _ _ (by rw [deliverSignals_enabled]; exact hg)]
            simp [List.countP_append, hscan]

theorem waitLoop_countEnable_le (m : Nat) (sig : Option Nat) (mw t : ℚ)
    (iters : List IterEnv) :
    ∀ (g : GState) (k : Finset Nat) (sl : ℚ) (evs : List Event),
      (waitLoop m sig mw t iters g k sl evs).events.countP isEnable ≤
        evs.countP isEnable + 1 := by
  induction iters with
  | nil => intro g k sl evs; exact Nat.le_succ _
  | cons env rest ih =>
    intro g k sl evs
    have hscan : (scanProc m sig k env.snapshot).events.countP isEnable = 0 :=
      scanProc_countP_nonkill isEnable isEnable_not_kill m sig k env.snapshot
    simp only [waitLoop]
    split
    · simp [List.countP_append, hscan]
    · split
      · simp [List.countP_append, hscan]
      · split
        · split
          · simp [List.countP_append, hscan, isEnable]
          · simp [List.countP_append, hscan]
        · split
          · rw [waitLoop_countEnable_enabled m sig mw t rest _ _ _ _ (by simp)]
            simp [List.countP_append, hscan, isEnable, isWarnStill]
          · refine le_trans (ih _ _ _ _) ?_
            simp [List.countP_append, hscan]

theorem waitLoop_countEnable_notEnabled (m : Nat) (sig : Option Nat) (mw t : ℚ)
    (iters : List IterEnv) :
    ∀ (g : GState) (k : Finset Nat) (sl : ℚ) (evs : List Event),
      (waitLoop m sig mw t iters g k sl evs).g.signals_enabled = false →
      (waitLoop m sig mw t iters g k sl evs).events.countP isEnable =
        evs.countP isEnable := by
  induction iters with
  | nil => intro g k sl evs _; rfl
  | cons env rest ih =>
    intro g k sl evs hout
    have hscan : (scanProc m sig k env.snapshot).events.countP isEnable = 0 :=
      scanProc_countP_nonkill isEnable isEnable_not_kill m sig k env.snapshot
    revert hout
    simp only [waitLoop]
    split
    · intro _; simp [List.countP_append, hscan]
    · split
      · intro _; simp [List.countP_append, hscan]
      · split
        · split
          · intro _; simp [List.countP_append, hscan, isEnable]
          · intro _; simp [List.countP_append, hscan]
        · split
          · intro hout
            have hmono := fun (kk : Finset Nat) (ssl : ℚ) (eevs : List Event) =>
              waitLoop_enabled_mono m sig mw t rest
                { deliverSignals env.sigDelivered g with signals_enabled := true } kk ssl eevs rfl
            rw [hmono _ _ _] at hout
            simp at hout
          · intro hout
            rw [ih _ _ _ _ hout]
            simp [List.countP_append, hscan]

theorem waitLoop_countEnable_trans (m : Nat) (sig : Option Nat) (mw t : ℚ)
    (iters : List IterEnv) :
    ∀ (g : GState) (k : Finset Nat) (sl : ℚ) (evs : List Event), g.signals_enabled = false →
      (waitLoop m sig mw t iters g k sl evs).g.signals_enabled = true →
      (waitLoop m sig mw t iters g k sl evs).events.countP isEnable =
        evs.countP isEnable + 1 := by
  induction iters with
  | nil =>
    intro g k sl evs hg hout
    rw [show (waitLoop m sig mw t [] g k sl evs).g = g from rfl, hg] at hout
    exact absurd hout (by simp)
  | cons env rest ih =>
    intro g k sl evs hg
    have hscan : (scanProc m sig k env.snapshot).events.countP isEnable = 0 :=
      scanProc_countP_nonkill isEnable isEnable_not_kill m sig k env.snapshot
    have hg1 : (deliverSignals env.sigDelivered g).signals_enabled = false := by
      rw [deliverSignals_enabled]; exact hg
    simp only [waitLoop]
    split
    · intro hout; rw [hg1] at hout; exact absurd hout (by simp)
    · split
      · intro hout; rw [hg1] at hout; exact absurd hout (by simp)
      · split
        · split
          · intro hout
            simp [deliverSignals_enabled, hg] at hout
          · intro hout; rw [hg1] at hout; exact absurd hout (by simp)
        · split
          · intro _
            rw [waitLoop_countEnable_enabled m sig mw t rest _ _ _ _ (by simp)]
            simp [List.countP_append, hscan, isEnable, isWarnStill]
          · intro hout
            rw [ih _ _ _ _ hg1 hout]
            simp [List.countP_append, hscan]

theorem waitLoop_countWarnI_notified (m : Nat) (sig : Option Nat) (mw t : ℚ)
    (iters : List IterEnv) :
    ∀ (g : GState) (k : Finset Nat) (sl : ℚ) (evs : List Event),
      g.keep_waiting_notified = true →
      (waitLoop m sig mw t iters g k sl evs).events.countP isWarnInterrupted =
        evs.countP isWarnInterrupted := by
  induction iters with
  | nil => intro g k sl evs _; rfl
  | cons env rest ih =>
    intro g k sl evs hg
    have hscan : (scanProc m sig k env.snapshot).events.countP isWarnInterrupted = 0 :=
      scanProc_countP_nonkill isWarnInterrupted isWarnInterrupted_not_kill m sig k env.snapshot
    simp only [waitLoop]
    split
    · simp [List.countP_append, hscan]
    · split
      · simp [List.countP_append, hscan]
      · split
        · split
          · rename_i hcond
            rw [deliverSignals_notified, hg] at hcond
            simp at hcond
          · simp [List.countP_append, hscan]
        · split
          · rw [ih _ _ _ _ (by simp [deliverSignals_notified, hg])]
            simp [List.countP_append, hscan, isWarnInterrupted]
          · rw [ih _ _ _ _ (by rw [deliverSignals_notified]; exact hg)]
            simp [List.countP_append, hscan]

theorem waitLoop_countWarnI_le (m : Nat) (sig : Option Nat) (mw t : ℚ)
    (iters : List IterEnv) :
    ∀ (g : GState) (k : Finset Nat) (sl : ℚ) (evs : List Event),
      (waitLoop m sig mw t iters g k sl evs).events.countP isWarnInterrupted ≤
        evs.countP isWarnInterrupted + 1 := by
  induction iters with
  | nil => intro g k sl evs; exact Nat.le_succ _
  | cons env rest ih =>
    intro g k sl evs
    have hscan : (scanProc m sig k env.snapshot).events.countP isWarnInterrupted = 0 :=
      scanProc_countP_nonkill isWarnInterrupted isWarnInterrupted_not_kill m sig k env.snapshot
    simp only [waitLoop]
    split
    · simp [List.countP_append, hscan]
    · split
      · simp [List.countP_append, hscan]
      · split
        · split
          · simp [List.countP_append, hscan, isWarnInterrupted]
          · simp [List.countP_append, hscan]
        · split
          · refine le_trans (ih _ _ _ _) ?_
            simp [List.countP_append, hscan, isWarnInterrupted, isEnable, isWarnStill]
          · refine le_trans (ih _ _ _ _) ?_
            simp [List.countP_append, hscan]

theorem waitLoop_countWarnI_outFalse (m : Nat) (sig : Option Nat) (mw t : ℚ)
    (iters : List IterEnv) :
    ∀ (g : GState) (k : Finset Nat) (sl : ℚ) (evs : List Event),
      (waitLoop m sig mw t iters g k sl evs).g.keep_waiting_notified = false →
      (waitLoop m sig mw t iters g k sl evs).events.countP isWarnInterrupted =
        evs.countP isWarnInterrupted := by
  induction iters with
  | nil => intro g k sl evs _; rfl
  | cons env rest ih =>
    intro g k sl evs hout
    have hscan : (scanProc m sig k env.snapshot).events.countP isWarnInterrupted = 0 :=
      scanProc_countP_nonkill isWarnInterrupted isWarnInterrupted_not_kill m sig k env.snapshot
    revert hout
    simp only [waitLoop]
    split
    · intro _; simp [List.countP_append, hscan]
    · split
      · intro _; simp [List.countP_append, hscan]
      · split
        · split
          · intro hout; simp at hout
          · intro _; simp [List.countP_append, hscan]
        · split
          · intro hout
            rw [ih _ _ _ _ hout]
            simp [List.countP_append, hscan, isWarnInterrupted]
          · intro hout
            rw [ih _ _ _ _ hout]
            simp [List.countP_append, hscan]

theorem waitLoop_countWarnI_trans (m : Nat) (sig : Option Nat) (mw t : ℚ)
    (iters : List IterEnv) :
    ∀ (g : GState) (k : Finset Nat) (sl : ℚ) (evs : List Event),
      g.keep_waiting_notified = false →
      (waitLoop m sig mw t iters g k sl evs).g.keep_waiting_notified = true →
      (waitLoop m sig mw t iters g k sl evs).events.countP isWarnInterrupted =
        evs.countP isWarnInterrupted + 1 := by
  induction iters with
  | nil =>
    intro g k sl evs hg hout
    rw [show (waitLoop m sig mw t [] g k sl evs).g = g from rfl, hg] at hout
    exact absurd hout (by simp)
  | cons env rest ih =>
    intro g k sl evs hg
    have hscan : (scanProc m sig k env.snapshot).events.countP isWarnInterrupted = 0 :=
      scanProc_countP_nonkill isWarnInterrupted isWarnInterrupted_not_kill m sig k env.snapshot
    have hg1 : (deliverSignals env.sigDelivered g).keep_waiting_notified = false := by
      rw [deliverSignals_notified]; exact hg
    simp only [waitLoop]
    split
    · intro hout; rw [hg1] at hout; exact absurd hout (by simp)
    · split
      · intro hout; rw [hg1] at hout; exact absurd hout (by simp)
      · split
        · intro _
          simp [List.countP_append, hscan, isWarnInterrupted]
        · split
          · intro hout
            rw [ih _ _ _ _ (by simp [deliverSignals_notified, hg]) hout]
            simp [List.countP_append, hscan, isWarnInterrupted]
          · intro hout
            rw [ih _ _ _ _ hg1 hout]
            simp [List.countP_append, hscan]

theorem waitLoop_threshold (m : Nat) (sig : Option Nat) (mw t : ℚ)
    (iters : List IterEnv) :
    ∀ (g : GState) (k : Finset Nat) (sl : ℚ) (evs : List Event),
      (∀ env ∈ iters, env.tSignal ≤ t + SIGNAL_ENABLE_WAIT_TIME) →
      (waitLoop m sig mw t iters g k sl evs).g.signals_enabled = g.signals_enabled := by
  induction iters with
  | nil => intro g k sl evs _; rfl
  | cons env rest ih =>
    intro g k sl evs hts
    have henv : env.tSignal ≤ t + SIGNAL_ENABLE_WAIT_TIME := hts env (List.mem_cons_self env rest)
    simp only [waitLoop]
    split
    · exact deliverSignals_enabled _ _
    · split
      · exact deliverSignals_enabled _ _
      · split
        · split
          · exact deliverSignals_enabled _ _
          · exact deliverSignals_enabled _ _
        · split
          · rename_i hcond
            exact absurd hcond.2 (not_lt.2 henv)
          · rw [ih _ _ _ _ (fun e he => hts e (List.mem_cons_of_mem env he))]
            exact deliverSignals_enabled _ _

theorem waitLoop_warn_pair (m : Nat) (sig : Option Nat) (mw t : ℚ)
    (iters : List IterEnv) :
    ∀ (g : GState) (k : Finset Nat) (sl : ℚ) (evs : List Event),
      (waitLoop m sig mw t iters g k sl evs).events.countP isEnable +
          evs.countP isWarnStill =
        (waitLoop m sig mw t iters g k sl evs).events.countP isWarnStill +
          evs.countP isEnable := by
  induction iters with
  | nil => intro g k sl evs; exact Nat.add_comm _ _
  | cons env rest ih =>
    intro g k sl evs
    have hscanE : (scanProc m sig k env.snapshot).events.countP isEnable = 0 :=
      scanProc_countP_nonkill isEnable isEnable_not_kill m sig k env.snapshot
    have hscanW : (scanProc m sig k env.snapshot).events.countP isWarnStill = 0 :=
      scanProc_countP_nonkill isWarnStill isWarnStill_not_kill m sig k env.snapshot
    simp only [waitLoop]
    split
    · simp [List.countP_append, hscanE, hscanW]; omega
    · split
      · simp [List.countP_append, hscanE, hscanW]; omega
      · split
        · split
          · simp [List.countP_append, hscanE, hscanW, isEnable, isWarnStill]; omega
          · simp [List.countP_append, hscanE, hscanW]; omega
        · split
          · have h := ih ({ deliverSignals env.sigDelivered g with signals_enabled := true })
              (scanProc m sig k env.snapshot).killed
              (if t + 2 < env.tThrottle then (1 : ℚ)/2 else sl)
              (((evs ++ (scanProc m sig k env.snapshot).events) ++
                [Event.warnStillWaiting (scanProc m sig k env.snapshot).still.length,
                  Event.enableSignals]))
            simp only [List.countP_append, List.countP_cons, hscanE, hscanW] at h ⊢
            simp [isEnable, isWarnStill] at h ⊢
            omega
          · have h := ih (deliverSignals env.sigDelivered g)
              (scanProc m sig k env.snapshot).killed
              (if t + 2 < env.tThrottle then (1 : ℚ)/2 else sl)
              (evs ++ (scanProc m sig k env.snapshot).events)
            simp only [List.countP_append, hscanE, hscanW] at h ⊢
            omega

/-- When `keep_waiting` is already false (and the interruption already
notified), the loop returns at its very first poll iteration, right after one
complete scan: the scan's kills are sent, its survivors are returned, and no
further waiting happens. -/
theorem waitLoop_kw_false (m : Nat) (sig : Option Nat) (mw t : ℚ) (env : IterEnv)
    (rest : List IterEnv) (g : GState) (k : Finset Nat) (sl : ℚ) (evs : List Event)
    (hkw : g.keep_waiting = false) (hn : g.keep_waiting_notified = true) :
    waitLoop m sig mw t (env :: rest) g k sl evs =
      ⟨some (scanProc m sig k env.snapshot).still, deliverSignals env.sigDelivered g,
        (scanProc m sig k env.snapshot).killed, sl,
        evs ++ (scanProc m sig k env.snapshot).events⟩ := by
  have h1 : (deliverSignals env.sigDelivered g).keep_waiting = false :=
    deliverSignals_kwFalse _ _ hkw
  have h2 : (deliverSignals env.sigDelivered g).keep_waiting_notified = true := by
    rw [deliverSignals_notified]; exact hn
  simp only [waitLoop]
  split
  · rfl
  · split
    · rfl
    · split
      · rename_i hcond
        rw [hcond] at h2
        simp at h2
      · rfl

/-- With a non-negative wait already exceeded at the first iteration, the loop
still performs one complete scan and returns its survivors. -/
theorem waitLoop_timeout_first (m : Nat) (sig : Option Nat) (mw t : ℚ) (env : IterEnv)
    (rest : List IterEnv) (g : GState) (k : Finset Nat) (sl : ℚ) (evs : List Event)
    (h0 : 0 ≤ mw) (ht : t + mw < env.tTimeout) :
    waitLoop m sig mw t (env :: rest) g k sl evs =
      ⟨some (scanProc m sig k env.snapshot).still, deliverSignals env.sigDelivered g,
        (scanProc m sig k env.snapshot).killed, sl,
        evs ++ (scanProc m sig k env.snapshot).events⟩ := by
  simp only [waitLoop]
  split
  · rfl
  · split
    · rfl
    · rename_i hcond
      exact absurd ⟨h0, ht⟩ hcond

/-- Every event of the first iteration's scan occurs in the loop's event log. -/
theorem waitLoop_first_mem (m : Nat) (sig : Option Nat) (mw t : ℚ) (env : IterEnv)
    (rest : List IterEnv) (g : GState) (k : Finset Nat) (sl : ℚ) (evs : List Event)
    (e : Event) (he : e ∈ (scanProc m sig k env.snapshot).events) :
    e ∈ (waitLoop m sig mw t (env :: rest) g k sl evs).events := by
  simp only [waitLoop]
  split
  · exact List.mem_append.2 (Or.inr he)
  · split
    · exact List.mem_append.2 (Or.inr he)
    · split
      · split
        · exact List.mem_append.2 (Or.inl (List.mem_append.2 (Or.inr he)))
        · exact List.mem_append.2 (Or.inr he)
      · split
        · rw [waitLoop_evs]
          exact List.mem_append.2 (Or.inl (List.mem_append.2 (Or.inl
            (List.mem_append.2 (Or.inr he)))))
        · rw [waitLoop_evs]
          exact List.mem_append.2 (Or.inl (List.mem_append.2 (Or.inr he)))

/-- Whatever the loop returns as survivors is the survivor list of one of its
scans. -/
theorem waitLoop_retd_scan (m : Nat) (sig : Option Nat) (mw t : ℚ)
    (iters : List IterEnv) :
    ∀ (g : GState) (k : Finset Nat) (sl : ℚ) (evs : List Event)
      (still : List (Nat × String)),
      (waitLoop m sig mw t iters g k sl evs).retd = some still →
      ∃ env ∈ iters, ∃ k2, still = (scanProc m sig k2 env.snapshot).still := by
  induction iters with
  | nil =>
    intro g k sl evs still h
    exact absurd h (by simp [waitLoop])
  | cons env rest ih =>
    intro g k sl evs still
    simp only [waitLoop]
    split
    · intro h
      obtain rfl : still = (scanProc m sig k env.snapshot).still := by
        simpa using h.symm
      exact ⟨env, List.mem_cons_self env rest, k, rfl⟩
    · split
      · intro h
        obtain rfl : still = (scanProc m sig k env.snapshot).still := by
          simpa using h.symm
        exact ⟨env, List.mem_cons_self env rest, k, rfl⟩
      · split
        · split
          · intro h
            obtain rfl : still = (scanProc m sig k env.snapshot).still := by
              simpa using h.symm
            exact ⟨env, List.mem_cons_self env rest, k, rfl⟩
          · intro h
            obtain rfl : still = (scanProc m sig k env.snapshot).still := by
              simpa using h.symm
            exact ⟨env, List.mem_cons_self env rest, k, rfl⟩
        · split
          · intro h
            obtain ⟨env2, henv2, k2, hk2⟩ := ih _ _ _ _ _ h
            exact ⟨env2, List.mem_cons_of_mem env henv2, k2, hk2⟩
          · intro h
            obtain ⟨env2, henv2, k2, hk2⟩ := ih _ _ _ _ _ h
            exact ⟨env2, List.mem_cons_of_mem env henv2, k2, hk2⟩

theorem procOne_kill_mem (m s : Nat) (k : Finset Nat) (f : ProcFile) (p : Nat)
    (hl : liveEntry m p f = true) (hk : p ∉ k) :
    Event.killSent p s ∈ (procOne m (some s) k f).events := by
  unfold procOne
  unfold liveEntry at hl
  cases hstat : f.stat with
  | ioErr => rw [hstat] at hl; simp at hl
  | emptyData => rw [hstat] at hl; simp at hl
  | ok pid st =>
    rw [hstat] at hl
    simp only [decide_eq_true_eq] at hl
    obtain ⟨rfl, hconds⟩ := hl
    simp only [if_pos hconds]
    rw [if_pos hk]
    exact List.mem_singleton.2 rfl

theorem scanProc_kill_mem (m s : Nat) (snap : List ProcFile) (p : Nat) :
    ∀ (k : Finset Nat), (∃ f ∈ snap, liveEntry m p f = true) → p ∉ k →
      Event.killSent p s ∈ (scanProc m (some s) k snap).events := by
  induction snap with
  | nil => intro k h _; simp at h
  | cons f rest ih =>
    intro k hlive hk
    have hsplit : Event.killSent p s ∈ (procOne m (some s) k f).events ++
        (scanProc m (some s) (procOne m (some s) k f).killed rest).events →
        Event.killSent p s ∈ (scanProc m (some s) k (f :: rest)).events := fun h => h
    apply hsplit
    by_cases hphead : liveEntry m p f = true
    · exact List.mem_append.2 (Or.inl (procOne_kill_mem m s k f p hphead hk))
    · have hrest : ∃ f0 ∈ rest, liveEntry m p f0 = true := by
        obtain ⟨f0, hf0, hl0⟩ := hlive
        rcases List.mem_cons.1 hf0 with rfl | hmem
        · exact absurd hl0 hphead
        · exact ⟨f0, hmem, hl0⟩
      have hk1 : p ∉ (procOne m (some s) k f).killed := by
        intro hmem
        rcases (procOne_killed_mem m (some s) k f p).1 hmem with h | ⟨_, hl, _⟩
        · exact hk h
        · exact hphead hl
      exact List.mem_append.2 (Or.inr (ih _ hrest hk1))

/-- A pid presented as live by no scanned entry is never signaled. -/
theorem waitLoop_countKill_noLive (m : Nat) (sig : Option Nat) (mw t : ℚ)
    (iters : List IterEnv) (p : Nat) :
    ∀ (g : GState) (k : Finset Nat) (sl : ℚ) (evs : List Event),
      (∀ env ∈ iters, ∀ f ∈ env.snapshot, liveEntry m p f = false) →
      (waitLoop m sig mw t iters g k sl evs).events.countP (isKillOf p) =
        evs.countP (isKillOf p) := by
  induction iters with
  | nil => intro g k sl evs _; rfl
  | cons env rest ih =>
    intro g k sl evs hno
    have hnolive : ¬ ∃ f ∈ env.snapshot, liveEntry m p f = true := by
      rintro ⟨f, hf, hl⟩
      rw [hno env (List.mem_cons_self env rest) f hf] at hl
      exact absurd hl (by simp)
    have hscan : (scanProc m sig k env.snapshot).events.countP (isKillOf p) = 0 := by
      rw [scanProc_countKill]
      rw [if_neg (fun hc => hnolive hc.2.1)]
    have hrest : ∀ e ∈ rest, ∀ f ∈ e.snapshot, liveEntry m p f = false :=
      fun e he => hno e (List.mem_cons_of_mem env he)
    simp only [waitLoop]
    split
    · simp [List.countP_append, hscan]
    · split
      · simp [List.countP_append, hscan]
      · split
        · split
          · simp [List.countP_append, hscan, isKillOf]
          · simp [List.countP_append, hscan]
        · split
          · rw [ih _ _ _ _ hrest]
            simp [List.countP_append, hscan, isKillOf]
          · rw [ih _ _ _ _ hrest]
            simp [List.countP_append, hscan]

theorem normalizeExitWait_ne_one (ts : List ℚ) (h1 : ts.length ≠ 1) :
    normalizeExitWait ts = ts := by
  cases ts with
  | nil => rfl
  | cons a l =>
    cases l with
    | nil => exact absurd rfl h1
    | cons b l2 => rfl

theorem main_configError (ew : String) (arg : Int) (renv : RunEnv)
    (h : computeSchedule ew = none) :
    main ew arg renv = some MainResult.configError := by
  unfold main
  rw [h]

/-- C2: schedule parsing: `"-1"` parses to `[0.5, forever]`, `"10"` to
`[5, 5]`, `"3,-1"` to `[3, forever]` (forever encoded as a negative
duration); `"1,2,3"` — and generally any count of comma-separated values
other than one or two — fails fatally: `main` reports a configuration error
and returns before any waiting begins. -/
theorem C2_schedule_normalization :
    computeSchedule "-1" = some [1/2, -1] ∧
    computeSchedule "10" = some [5, 5] ∧
    computeSchedule "3,-1" = some [3, -1] ∧
    computeSchedule "1,2,3" = none ∧
    (∀ (arg : Int) (renv : RunEnv),
      main "1,2,3" arg renv = some MainResult.configError) ∧
    (∀ (ew : String) (ts : List ℚ), parseExitWaitTimes ew = some ts →
      ts.length ≠ 1 → ts.length ≠ EXIT_WAIT_PHASES → computeSchedule ew = none) ∧
    (∀ (ew : String) (arg : Int) (renv : RunEnv), computeSchedule ew = none →
      main ew arg renv = some MainResult.configError) := by
  refine ⟨by decide, by decide, by decide, by decide, ?_, ?_, ?_⟩
  · intro arg renv
    exact main_configError _ arg renv (by decide)
  · intro ew ts hparse h1 h2
    unfold computeSchedule
    rw [hparse]
    show (if (normalizeExitWait ts).length = EXIT_WAIT_PHASES then
      some (normalizeExitWait ts) else none) = none
    rw [normalizeExitWait_ne_one ts h1, if_neg h2]
  · intro ew arg renv h
    exact main_configError ew arg renv h

theorem C2_schedule_normalization_witness :
    main "1,2,3" 7 renvQuiet = some MainResult.configError ∧
    computeSchedule "5,5,5" = none :=
  ⟨C2_schedule_normalization.2.2.2.2.1 7 renvQuiet,
   C2_schedule_normalization.2.2.2.2.2.1 "5,5,5" [5, 5, 5] (by decide) (by decide)
     (by decide)⟩

/-- C3: whenever `main` completes a run (so the schedule parsed and both
phases returned), the exit code it returns is exactly the argument it was
invoked with, regardless of which processes were left running or how reaping
went. -/
theorem C3_exit_code_fidelity (ew : String) (arg : Int) (renv : RunEnv)
    (o : RunOutcome) (h : main ew arg renv = some (MainResult.ok o)) :
    o.exitCode = arg ∧ mainExitCode (MainResult.ok o) = arg := by
  have hexit : o.exitCode = arg := by
    unfold main at h
    split at h
    · simp at h
    · split at h
      · unfold mainPhases at h
        split at h
        · simp at h
        · split at h
          · simp only [Option.some.injEq, MainResult.ok.injEq] at h
            rw [← h]
          · split at h
            · simp at h
            · simp only [Option.some.injEq, MainResult.ok.injEq] at h
              rw [← h]
      · simp at h
  exact ⟨hexit, hexit⟩

theorem C3_exit_code_fidelity_witness :
    main "10" 7 renvQuiet = some (MainResult.ok ⟨[], 7, []⟩) ∧
    (⟨[], 7, []⟩ : RunOutcome).exitCode = 7 :=
  ⟨by decide, (C3_exit_code_fidelity "10" 7 renvQuiet ⟨[], 7, []⟩ (by decide)).1⟩

/-- C4: within a Terminate-phase call of `wait_for_processes` with a signal,
any pid is sent the signal at most once; a pid alive in the first poll's scan
is signaled exactly once, however many polls follow; the already-signaled set
only grows along the loop; and a pid already in it is never signaled again. -/
theorem C4_idempotent_signaling (m s : Nat) (mw : ℚ) (g : GState) (penv : PhaseEnv) :
    (∀ p, (wait_for_processes m (some s) mw g penv).events.countP (isKillOf p) ≤ 1) ∧
    (∀ env rest p, penv.iters = env :: rest →
      (∃ f ∈ env.snapshot, liveEntry m p f = true) →
      (wait_for_processes m (some s) mw g penv).events.countP (isKillOf p) = 1) ∧
    (∀ (iters : List IterEnv) (g2 : GState) (k : Finset Nat) (sl : ℚ) (evs : List Event),
      k ⊆ (waitLoop m (some s) mw penv.start_time iters g2 k sl evs).killed) ∧
    (∀ (iters : List IterEnv) (g2 : GState) (k : Finset Nat) (sl : ℚ) (p : Nat),
      p ∈ k →
      (waitLoop m (some s) mw penv.start_time iters g2 k sl []).events.countP
        (isKillOf p) = 0) := by
  refine ⟨?_, ?_, ?_, ?_⟩
  · intro p
    have h := waitLoop_countKill_le m (some s) mw penv.start_time penv.iters p g ∅ (1/100) []
    simpa [wait_for_processes] using h
  · intro env rest p hiters hlive
    unfold wait_for_processes
    rw [hiters]
    have h := waitLoop_countKill_first m s mw penv.start_time env rest p g ∅ (1/100) []
      hlive (by simp)
    simpa using h
  · intro iters g2 k sl evs
    exact waitLoop_killed_mono m (some s) mw penv.start_time iters g2 k sl evs
  · intro iters g2 k sl p hp
    have h := waitLoop_countKill_inKilled m (some s) mw penv.start_time iters p g2 k sl [] hp
    simpa using h

theorem C4_idempotent_signaling_witness :
    (wait_for_processes 2 (some 15) (-1) ⟨true, false, true⟩ ph2).events.countP
      (isKillOf 5) = 1 :=
  (C4_idempotent_signaling 2 15 (-1) ⟨true, false, true⟩ ph2).2.1 envC [] 5 (by decide)
    (by decide)

/-- C5: during the NaturalExit phase (no signal requested) no process is ever
sent a signal; in a completed run, the event log starts with the NaturalExit
phase's events — all of which are non-kill events — so nothing is signaled
before that phase's wait has completed, timed out, or been cancelled. -/
theorem C5_phase_ordering :
    (∀ (m : Nat) (mw : ℚ) (g : GState) (penv : PhaseEnv),
      ∀ e ∈ (wait_for_processes m none mw g penv).events, isKill e = false) ∧
    (∀ (ew : String) (arg : Int) (renv : RunEnv) (o : RunOutcome) (t1 t2 : ℚ),
      computeSchedule ew = some [t1, t2] →
      main ew arg renv = some (MainResult.ok o) →
      ∃ tail, o.events =
        (wait_for_processes renv.my_pid none t1 initGState renv.phase1).events ++ tail) := by
  have h1 : ∀ (m : Nat) (mw : ℚ) (g : GState) (penv : PhaseEnv),
      ∀ e ∈ (wait_for_processes m none mw g penv).events, isKill e = false := by
    intro m mw g penv e he
    have hz : (wait_for_processes m none mw g penv).events.countP isKill = 0 := by
      have h := waitLoop_none_kills m mw penv.start_time penv.iters g ∅ (1/100) []
      simpa [wait_for_processes] using h
    have h := List.countP_eq_zero.1 hz e he
    simpa using h
  refine ⟨h1, ?_⟩
  intro ew arg renv o t1 t2 hs h
  unfold main at h
  rw [hs] at h
  change mainPhases arg renv t1 t2 = some (MainResult.ok o) at h
  unfold mainPhases at h
  split at h
  · simp at h
  · split at h
    · simp only [Option.some.injEq, MainResult.ok.injEq] at h
      refine ⟨[], ?_⟩
      rw [← h]
      simp
    · split at h
      · simp at h
      · rename_i still1 hretd1 hne still2 hretd2
        simp only [Option.some.injEq, MainResult.ok.injEq] at h
        refine ⟨(wait_for_processes renv.my_pid (some SIGTERM) t2
            (wait_for_processes renv.my_pid none t1 initGState renv.phase1).g
            renv.phase2).events ++
          (if still2 = [] then [] else [Event.warnLeftRunning still2.length]), ?_⟩
        rw [← h]
        simp [List.append_assoc]

theorem C5_phase_ordering_witness :
    isKill Event.warnInterrupt = false ∧
    ∃ tail, (⟨[(5, "PID 5 (S): sleep")], 7,
        [Event.killSent 5 15, Event.warnLeftRunning 1]⟩ : RunOutcome).events =
      (wait_for_processes 2 none 5 initGState phN).events ++ tail :=
  ⟨C5_phase_ordering.1 2 (-1) initGState ph1 Event.warnInterrupt (by decide),
   C5_phase_ordering.2 "10" 7 renvT
     ⟨[(5, "PID 5 (S): sleep")], 7, [Event.killSent 5 15, Event.warnLeftRunning 1]⟩
     5 5 (by decide) (by decide)⟩

/-- C6: a stat entry whose state is in the already-dead set {Z, X, x}, or
whose pid is the Reaper's own or 1, is neither signaled nor recorded as still
running; consequently, for any signal mode, a pid presented only by such
entries is never signaled in the whole phase and never appears in the
returned survivor map. -/
theorem C6_dead_state_exclusion (m : Nat) (sig : Option Nat) :
    (∀ (k : Finset Nat) (pid : Nat) (st : String) (c : Option String),
      st ∈ ALREADY_DEAD_STATES ∨ pid = m ∨ pid = 1 →
      procOne m sig k ⟨StatRead.ok pid st, c⟩ = ⟨k, none, []⟩) ∧
    (∀ (pid : Nat) (st : String) (c : Option String) (p : Nat),
      st ∈ ALREADY_DEAD_STATES ∨ pid = m ∨ pid = 1 →
      liveEntry m p ⟨StatRead.ok pid st, c⟩ = false) ∧
    (∀ (mw : ℚ) (g : GState) (penv : PhaseEnv) (p : Nat),
      (∀ env ∈ penv.iters, ∀ f ∈ env.snapshot, liveEntry m p f = false) →
      (wait_for_processes m sig mw g penv).events.countP (isKillOf p) = 0 ∧
      ∀ still d, (wait_for_processes m sig mw g penv).retd = some still →
        (p, d) ∉ still) := by
  refine ⟨?_, ?_, ?_⟩
  · intro k pid st c hex
    have hcond : ¬(st ∉ ALREADY_DEAD_STATES ∧ pid ≠ m ∧ pid ≠ 1) := by
      rintro ⟨hd, hm, h1⟩
      rcases hex with h | h | h
      · exact hd h
      · exact hm h
      · exact h1 h
    simp only [procOne]
    rw [if_neg hcond]
  · intro pid st c p hex
    simp only [liveEntry, decide_eq_false_iff_not]
    rintro ⟨rfl, hd, hm, h1⟩
    rcases hex with h | h | h
    · exact hd h
    · exact hm h
    · exact h1 h
  · intro mw g penv p hno
    constructor
    · have h := waitLoop_countKill_noLive m sig mw penv.start_time penv.iters p g ∅
        (1/100) [] hno
      simpa [wait_for_processes] using h
    · intro still d hretd hmem
      obtain ⟨env2, henv2, k2, rfl⟩ :=
        waitLoop_retd_scan m sig mw penv.start_time penv.iters g ∅ (1/100) [] still hretd
      obtain ⟨f, hf, hl⟩ := (scanProc_still_mem m sig k2 env2.snapshot p).1 ⟨d, hmem⟩
      rw [hno env2 henv2 f hf] at hl
      exact absurd hl (by simp)

theorem C6_dead_state_exclusion_witness :
    procOne 2 (some 15) ∅ ⟨StatRead.ok 6 "Z", some "defunct"⟩ = ⟨∅, none, []⟩ ∧
    (wait_for_processes 2 (some 15) 5 initGState phZ).events.countP (isKillOf 6) = 0 :=
  ⟨(C6_dead_state_exclusion 2 (some 15)).1 ∅ 6 "Z" (some "defunct") (by decide),
   ((C6_dead_state_exclusion 2 (some 15)).2.2 5 initGState phZ 6 (by decide)).1⟩

theorem wfp_countEnable_le (m : Nat) (sig : Option Nat) (mw : ℚ) (g : GState)
    (penv : PhaseEnv) :
    (wait_for_processes m sig mw g penv).events.countP isEnable ≤ 1 := by
  have h := waitLoop_countEnable_le m sig mw penv.start_time penv.iters g ∅ (1/100) []
  simpa [wait_for_processes] using h

theorem wfp_countEnable_enabled (m : Nat) (sig : Option Nat) (mw : ℚ) (g : GState)
    (penv : PhaseEnv) (hg : g.signals_enabled = true) :
    (wait_for_processes m sig mw g penv).events.countP isEnable = 0 := by
  have h := waitLoop_countEnable_enabled m sig mw penv.start_time penv.iters g ∅ (1/100) [] hg
  simpa [wait_for_processes] using h

theorem wfp_countEnable_outFalse (m : Nat) (sig : Option Nat) (mw : ℚ) (g : GState)
    (penv : PhaseEnv)
    (hout : (wait_for_processes m sig mw g penv).g.signals_enabled = false) :
    (wait_for_processes m sig mw g penv).events.countP isEnable = 0 := by
  have h := waitLoop_countEnable_notEnabled m sig mw penv.start_time penv.iters g ∅ (1/100) []
    hout
  simpa [wait_for_processes] using h

theorem wfp_countWarnI_le (m : Nat) (sig : Option Nat) (mw : ℚ) (g : GState)
    (penv : PhaseEnv) :
    (wait_for_processes m sig mw g penv).events.countP isWarnInterrupted ≤ 1 := by
  have h := waitLoop_countWarnI_le m sig mw penv.start_time penv.iters g ∅ (1/100) []
  simpa [wait_for_processes] using h

theorem wfp_countWarnI_notified (m : Nat) (sig : Option Nat) (mw : ℚ) (g : GState)
    (penv : PhaseEnv) (hg : g.keep_waiting_notified = true) :
    (wait_for_processes m sig mw g penv).events.countP isWarnInterrupted = 0 := by
  have h := waitLoop_countWarnI_notified m sig mw penv.start_time penv.iters g ∅ (1/100) [] hg
  simpa [wait_for_processes] using h

theorem wfp_countWarnI_outFalse (m : Nat) (sig : Option Nat) (mw : ℚ) (g : GState)
    (penv : PhaseEnv)
    (hout : (wait_for_processes m sig mw g penv).g.keep_waiting_notified = false) :
    (wait_for_processes m sig mw g penv).events.countP isWarnInterrupted = 0 := by
  have h := waitLoop_countWarnI_outFalse m sig mw penv.start_time penv.iters g ∅ (1/100) []
    hout
  simpa [wait_for_processes] using h

theorem wfp_countWarnI_trans (m : Nat) (sig : Option Nat) (mw : ℚ) (g : GState)
    (penv : PhaseEnv) (hg : g.keep_waiting_notified = false)
    (hout : (wait_for_processes m sig mw g penv).g.keep_waiting_notified = true) :
    (wait_for_processes m sig mw g penv).events.countP isWarnInterrupted = 1 := by
  have h := waitLoop_countWarnI_trans m sig mw penv.start_time penv.iters g ∅ (1/100) []
    hg hout
  simpa [wait_for_processes] using h

/-- C7: per invocation, `signals_enabled` never reverts once true; over a
whole completed run the enable action happens at most once; with every poll
clock reading within the 10-second threshold of the phase start the flag is
unchanged and no enable happens; and every enable is paired one-for-one with
a "Waiting for N processes to exit..." warning. -/
theorem C7_monotonic_escalation :
    (∀ (m : Nat) (sig : Option Nat) (mw t : ℚ) (iters : List IterEnv) (g : GState)
        (k : Finset Nat) (sl : ℚ) (evs : List Event),
      g.signals_enabled = true →
      (waitLoop m sig mw t iters g k sl evs).g.signals_enabled = true) ∧
    (∀ (ew : String) (arg : Int) (renv : RunEnv) (o : RunOutcome),
      main ew arg renv = some (MainResult.ok o) → o.events.countP isEnable ≤ 1) ∧
    (∀ (m : Nat) (sig : Option Nat) (mw : ℚ) (g : GState) (penv : PhaseEnv),
      (∀ env ∈ penv.iters, env.tSignal ≤ penv.start_time + SIGNAL_ENABLE_WAIT_TIME) →
      (wait_for_processes m sig mw g penv).g.signals_enabled = g.signals_enabled ∧
      (wait_for_processes m sig mw g penv).events.countP isEnable = 0) ∧
    (∀ (m : Nat) (sig : Option Nat) (mw : ℚ) (g : GState) (penv : PhaseEnv),
      (wait_for_processes m sig mw g penv).events.countP isEnable =
        (wait_for_processes m sig mw g penv).events.countP isWarnStill) := by
  refine ⟨?_, ?_, ?_, ?_⟩
  · intro m sig mw t iters g k sl evs hg
    exact waitLoop_enabled_mono m sig mw t iters g k sl evs hg
  · intro ew arg renv o h
    unfold main at h
    split at h
    · simp at h
    · split at h
      · unfold mainPhases at h
        split at h
        · simp at h
        · split at h
          · simp only [Option.some.injEq, MainResult.ok.injEq] at h
            rw [← h]
            exact wfp_countEnable_le _ _ _ _ _
          · split at h
            · simp at h
            · rename_i x0 ts0 t1 t2 hts x1 still1 hretd1 hne x2 still2 hretd2
              simp only [Option.some.injEq, MainResult.ok.injEq] at h
              rw [← h]
              have c3 : (if still2 = [] then ([] : List Event)
                  else [Event.warnLeftRunning still2.length]).countP isEnable = 0 := by
                split <;> rfl
              simp only [List.countP_append, c3]
              cases hen : (wait_for_processes renv.my_pid none t1 initGState
                  renv.phase1).g.signals_enabled with
              | true =>
                have c2 := wfp_countEnable_enabled renv.my_pid (some SIGTERM) t2
                  (wait_for_processes renv.my_pid none t1 initGState renv.phase1).g
                  renv.phase2 hen
                have c1 := wfp_countEnable_le renv.my_pid none t1 initGState renv.phase1
                omega
              | false =>
                have c1 := wfp_countEnable_outFalse renv.my_pid none t1 initGState
                  renv.phase1 hen
                have c2 := wfp_countEnable_le renv.my_pid (some SIGTERM) t2
                  (wait_for_processes renv.my_pid none t1 initGState renv.phase1).g
                  renv.phase2
                omega
      · simp at h
  · intro m sig mw g penv hts
    have ha : (wait_for_processes m sig mw g penv).g.signals_enabled = g.signals_enabled := by
      have h := waitLoop_threshold m sig mw penv.start_time penv.iters g ∅ (1/100) [] hts
      simpa [wait_for_processes] using h
    refine ⟨ha, ?_⟩
    cases hg : g.signals_enabled with
    | true => exact wfp_countEnable_enabled m sig mw g penv hg
    | false =>
      refine wfp_countEnable_outFalse m sig mw g penv ?_
      rw [ha, hg]
  · intro m sig mw g penv
    have h := waitLoop_warn_pair m sig mw penv.start_time penv.iters g ∅ (1/100) []
    simpa [wait_for_processes] using h

theorem C7_monotonic_escalation_witness :
    (waitLoop 2 (some 15) (-1) 0 [envC] ⟨true, true, false⟩ ∅ (1/100) []).g.signals_enabled
      = true ∧
    (⟨[(5, "PID 5 (S): sleep")], 7,
      [Event.killSent 5 15, Event.warnLeftRunning 1]⟩ : RunOutcome).events.countP
        isEnable ≤ 1 ∧
    (wait_for_processes 2 (some 15) 5 initGState phT).events.countP isEnable = 0 :=
  ⟨C7_monotonic_escalation.1 2 (some 15) (-1) 0 [envC] ⟨true, true, false⟩ ∅ (1/100) []
      rfl,
   C7_monotonic_escalation.2.1 "10" 7 renvT
     ⟨[(5, "PID 5 (S): sleep")], 7, [Event.killSent 5 15, Event.warnLeftRunning 1]⟩
     (by decide),
   ((C7_monotonic_escalation.2.2.1 2 (some 15) 5 initGState phT) (by decide)).2⟩

/-- C8: the "Waiting interrupted" warning appears at most once in a completed
run's whole event log, across poll iterations and across both phases; and a
single phase logs it exactly when its call is the one that turns the
notified flag from false to true — never again once the flag is set. -/
theorem C8_interrupt_warning_once :
    (∀ (ew : String) (arg : Int) (renv : RunEnv) (o : RunOutcome),
      main ew arg renv = some (MainResult.ok o) →
      o.events.countP isWarnInterrupted ≤ 1) ∧
    (∀ (m : Nat) (sig : Option Nat) (mw : ℚ) (g : GState) (penv : PhaseEnv),
      (wait_for_processes m sig mw g penv).events.countP isWarnInterrupted =
        if (wait_for_processes m sig mw g penv).g.keep_waiting_notified = true ∧
            g.keep_waiting_notified = false then 1 else 0) := by
  refine ⟨?_, ?_⟩
  · intro ew arg renv o h
    unfold main at h
    split at h
    · simp at h
    · split at h
      · unfold mainPhases at h
        split at h
        · simp at h
        · split at h
          · simp only [Option.some.injEq, MainResult.ok.injEq] at h
            rw [← h]
            exact wfp_countWarnI_le _ _ _ _ _
          · split at h
            · simp at h
            · rename_i x0 ts0 t1 t2 hts x1 still1 hretd1 hne x2 still2 hretd2
              simp only [Option.some.injEq, MainResult.ok.injEq] at h
              rw [← h]
              have c3 : (if still2 = [] then ([] : List Event)
                  else [Event.warnLeftRunning still2.length]).countP isWarnInterrupted
                    = 0 := by
                split <;> rfl
              simp only [List.countP_append, c3]
              cases hn : (wait_for_processes renv.my_pid none t1 initGState
                  renv.phase1).g.keep_waiting_notified with
              | true =>
                have c2 := wfp_countWarnI_notified renv.my_pid (some SIGTERM) t2
                  (wait_for_processes renv.my_pid none t1 initGState renv.phase1).g
                  renv.phase2 hn
                have c1 := wfp_countWarnI_le renv.my_pid none t1 initGState renv.phase1
                omega
              | false =>
                have c1 := wfp_countWarnI_outFalse renv.my_pid none t1 initGState
                  renv.phase1 hn
                have c2 := wfp_countWarnI_le renv.my_pid (some SIGTERM) t2
                  (wait_for_processes renv.my_pid none t1 initGState renv.phase1).g
                  renv.phase2
                omega
      · simp at h
  · intro m sig mw g penv
    cases hg : g.keep_waiting_notified with
    | true =>
      rw [wfp_countWarnI_notified m sig mw g penv hg]
      rw [if_neg (by simp [hg])]
    | false =>
      cases hout : (wait_for_processes m sig mw g penv).g.keep_waiting_notified with
      | true =>
        rw [wfp_countWarnI_trans m sig mw g penv hg hout]
        rw [if_pos ⟨rfl, rfl⟩]
      | false =>
        rw [wfp_countWarnI_outFalse m sig mw g penv hout]
        rw [if_neg (by simp [hout])]

theorem C8_interrupt_warning_once_witness :
    (wait_for_processes 2 none (-1) initGState ph1).events.countP isWarnInterrupted =
      (if (wait_for_processes 2 none (-1) initGState ph1).g.keep_waiting_notified = true ∧
          initGState.keep_waiting_notified = false then 1 else 0) ∧
    (⟨[(5, "PID 5 (S): sleep")], 7,
      [Event.warnStillWaiting 1, Event.enableSignals, Event.warnInterrupt,
        Event.killSent 5 15, Event.warnLeftRunning 1]⟩ : RunOutcome).events.countP
      isWarnInterrupted ≤ 1 :=
  ⟨C8_interrupt_warning_once.2 2 none (-1) initGState ph1,
   C8_interrupt_warning_once.1 "-1,-1" 7 renvC1
     ⟨[(5, "PID 5 (S): sleep")], 7,
       [Event.warnStillWaiting 1, Event.enableSignals, Event.warnInterrupt,
         Event.killSent 5 15, Event.warnLeftRunning 1]⟩ (by decide)⟩

/-- C9: scanner fault tolerance: a stat file that raises IOError (the process
disappeared between directory listing and the read) is silently skipped,
leaving the scan of the remaining entries unchanged; empty stat data is
likewise skipped; and a cmdline read failure behaves exactly like reading an
empty command line — the process is still recorded, with an empty command
string in its description. -/
theorem C9_scanner_fault_tolerance (m : Nat) (sig : Option Nat) (k : Finset Nat) :
    (∀ (c : Option String) (rest : List ProcFile),
      scanProc m sig k (⟨StatRead.ioErr, c⟩ :: rest) = scanProc m sig k rest) ∧
    (∀ (c : Option String) (rest : List ProcFile),
      scanProc m sig k (⟨StatRead.emptyData, c⟩ :: rest) = scanProc m sig k rest) ∧
    (∀ (pid : Nat) (st : String),
      procOne m sig k ⟨StatRead.ok pid st, none⟩ =
        procOne m sig k ⟨StatRead.ok pid st, some ""⟩) ∧
    (∀ (pid : Nat) (st : String),
      st ∉ ALREADY_DEAD_STATES ∧ pid ≠ m ∧ pid ≠ 1 →
      (procOne m sig k ⟨StatRead.ok pid st, none⟩).entry =
        some (pid, procDescription pid st "")) := by
  refine ⟨?_, ?_, ?_, ?_⟩
  · intro c rest
    exact scanProc_ioErr m sig k c rest
  · intro c rest
    exact scanProc_emptyData m sig k c rest
  · intro pid st
    exact procOne_cmdline_ioErr m sig k pid st
  · intro pid st hcond
    simp only [procOne]
    rw [if_pos hcond]
    cases sig with
    | none => rfl
    | some s => by_cases hk : pid ∈ k <;> simp [hk]

theorem C9_scanner_fault_tolerance_witness :
    scanProc 2 (some 15) ∅ [⟨StatRead.ioErr, none⟩, pf5] = scanProc 2 (some 15) ∅ [pf5] ∧
    (procOne 2 (some 15) ∅ ⟨StatRead.ok 5 "S", none⟩).entry =
      some (5, procDescription 5 "S" "") :=
  ⟨(C9_scanner_fault_tolerance 2 (some 15) ∅).1 none [pf5],
   (C9_scanner_fault_tolerance 2 (some 15) ∅).2.2.2 5 "S" (by decide)⟩

/-- C10: every call of the wait loop scans the whole process table once
before any exit condition is checked: with a zero wait duration already
elapsed at the first poll, or with the cancellation flag already set on
entry, the call still returns the complete survivor snapshot of a full first
scan; in general the survivors returned are those of one of the call's
scans; and in the Terminate phase every survivor found in the first scan is
sent SIGTERM. -/
theorem C10_first_scan_semantics (m : Nat) (sig : Option Nat) (mw : ℚ) (g : GState)
    (penv : PhaseEnv) (env : IterEnv) (rest : List IterEnv)
    (hiters : penv.iters = env :: rest) :
    (penv.start_time < env.tTimeout →
      (wait_for_processes m sig 0 g penv).retd =
        some (scanProc m sig ∅ env.snapshot).still) ∧
    (g.keep_waiting = false → g.keep_waiting_notified = true →
      (wait_for_processes m sig mw g penv).retd =
        some (scanProc m sig ∅ env.snapshot).still) ∧
    (∀ still, (wait_for_processes m sig mw g penv).retd = some still →
      ∃ env2 ∈ penv.iters, ∃ k2, still = (scanProc m sig k2 env2.snapshot).still) ∧
    (∀ s p d, sig = some s →
      (p, d) ∈ (scanProc m (some s) ∅ env.snapshot).still →
      Event.killSent p s ∈ (wait_for_processes m sig mw g penv).events) := by
  refine ⟨?_, ?_, ?_, ?_⟩
  · intro ht
    unfold wait_for_processes
    rw [hiters]
    rw [waitLoop_timeout_first m sig 0 penv.start_time env rest g ∅ (1/100) []
      le_rfl (by rwa [add_zero])]
  · intro hkw hn
    unfold wait_for_processes
    rw [hiters]
    rw [waitLoop_kw_false m sig mw penv.start_time env rest g ∅ (1/100) [] hkw hn]
  · intro still h
    exact waitLoop_retd_scan m sig mw penv.start_time penv.iters g ∅ (1/100) [] still h
  · rintro s p d rfl hmem
    obtain ⟨f, hf, hl⟩ := (scanProc_still_mem m (some s) ∅ env.snapshot p).1 ⟨d, hmem⟩
    have hkill := scanProc_kill_mem m s env.snapshot p ∅ ⟨f, hf, hl⟩ (by simp)
    unfold wait_for_processes
    rw [hiters]
    exact waitLoop_first_mem m (some s) mw penv.start_time env rest g ∅ (1/100) []
      _ hkill

theorem C10_first_scan_semantics_witness :
    (wait_for_processes 2 (some 15) (-1) ⟨true, false, true⟩ ph2).retd =
      some (scanProc 2 (some 15) ∅ [pf5]).still ∧
    Event.killSent 5 15 ∈
      (wait_for_processes 2 (some 15) (-1) ⟨true, false, true⟩ ph2).events :=
  ⟨(C10_first_scan_semantics 2 (some 15) (-1) ⟨true, false, true⟩ ph2 envC []
      rfl).2.1 rfl rfl,
   (C10_first_scan_semantics 2 (some 15) (-1) ⟨true, false, true⟩ ph2 envC []
      rfl).2.2.2 15 5 "PID 5 (S): sleep" rfl (by decide)⟩

/-- C1 is false of the code at this input: in the run `renvC1` the
cancellation flag is set during the NaturalExit phase while pid 5 remains
(the phase returns with `keep_waiting = false`, having logged "Waiting
interrupted"), yet the reaper does not go straight to Exited treating pid 5
as merely left running: the Terminate phase still runs and sends the
remaining process a SIGTERM after the interruption, as the run's event log
shows. -/
theorem C1_counterexample :
    (wait_for_processes 2 none (-1) initGState ph1).g.keep_waiting = false ∧
    (wait_for_processes 2 none (-1) initGState ph1).retd =
      some [(5, "PID 5 (S): sleep")] ∧
    Event.warnInterrupt ∈ (wait_for_processes 2 none (-1) initGState ph1).events ∧
    main "-1,-1" 7 renvC1 = some (MainResult.ok
      ⟨[(5, "PID 5 (S): sleep")], 7,
        [Event.warnStillWaiting 1, Event.enableSignals, Event.warnInterrupt,
          Event.killSent 5 SIGTERM, Event.warnLeftRunning 1]⟩) :=
  ⟨by decide, by decide, by decide, by decide⟩

/-- C1 (amended): when the NaturalExit phase returns with the cancellation
flag set (the interruption having been logged) while processes remain, the
reaper does not transition directly to Exited: `main` still enters the
Terminate phase, whose first scan sends SIGTERM exactly once to each live
survivor, and that phase then stops at its own first cancellation check; the
first scan's survivors are reported as left running. -/
theorem C1_cancellation_then_sigterm (ew : String) (arg : Int) (renv : RunEnv)
    (t1 t2 : ℚ) (env2 : IterEnv) (rest2 : List IterEnv)
    (still1 : List (Nat × String))
    (hs : computeSchedule ew = some [t1, t2])
    (h1 : (wait_for_processes renv.my_pid none t1 initGState renv.phase1).retd =
      some still1)
    (hne : still1 ≠ [])
    (hkw : (wait_for_processes renv.my_pid none t1 initGState
      renv.phase1).g.keep_waiting = false)
    (hn : (wait_for_processes renv.my_pid none t1 initGState
      renv.phase1).g.keep_waiting_notified = true)
    (hiters : renv.phase2.iters = env2 :: rest2) :
    main ew arg renv = some (MainResult.ok
      ⟨(scanProc renv.my_pid (some SIGTERM) ∅ env2.snapshot).still, arg,
        (wait_for_processes renv.my_pid none t1 initGState renv.phase1).events ++
          (scanProc renv.my_pid (some SIGTERM) ∅ env2.snapshot).events ++
          (if (scanProc renv.my_pid (some SIGTERM) ∅ env2.snapshot).still = [] then []
           else [Event.warnLeftRunning
             (scanProc renv.my_pid (some SIGTERM) ∅ env2.snapshot).still.length])⟩) ∧
    (∀ p d, (p, d) ∈ (scanProc renv.my_pid (some SIGTERM) ∅ env2.snapshot).still →
      Event.killSent p SIGTERM ∈
        (scanProc renv.my_pid (some SIGTERM) ∅ env2.snapshot).events) := by
  have hloop : wait_for_processes renv.my_pid (some SIGTERM) t2
      (wait_for_processes renv.my_pid none t1 initGState renv.phase1).g renv.phase2 =
      ⟨some (scanProc renv.my_pid (some SIGTERM) ∅ env2.snapshot).still,
        deliverSignals env2.sigDelivered
          (wait_for_processes renv.my_pid none t1 initGState renv.phase1).g,
        (scanProc renv.my_pid (some SIGTERM) ∅ env2.snapshot).killed, 1/100,
        [] ++ (scanProc renv.my_pid (some SIGTERM) ∅ env2.snapshot).events⟩ := by
    unfold wait_for_processes
    rw [hiters]
    exact waitLoop_kw_false renv.my_pid (some SIGTERM) t2 renv.phase2.start_time env2
      rest2 _ ∅ (1/100) [] hkw hn
  constructor
  · unfold main
    rw [hs]
    change mainPhases arg renv t1 t2 = _
    unfold mainPhases
    split
    · rename_i heq
      rw [h1] at heq
      simp at heq
    · rename_i still1' heq
      rw [h1] at heq
      obtain rfl : still1 = still1' := by simpa using heq
      rw [if_neg hne]
      split
      · rename_i heq2
        rw [hloop] at heq2
        simp at heq2
      · rename_i still2 heq2
        rw [hloop] at heq2
        obtain rfl : (scanProc renv.my_pid (some SIGTERM) ∅ env2.snapshot).still = still2 := by
          simpa using heq2
        rw [hloop]
        simp
  · intro p d hmem
    obtain ⟨f, hf, hl⟩ :=
      (scanProc_still_mem renv.my_pid (some SIGTERM) ∅ env2.snapshot p).1 ⟨d, hmem⟩
    exact scanProc_kill_mem renv.my_pid SIGTERM env2.snapshot p ∅ ⟨f, hf, hl⟩ (by simp)

theorem C1_cancellation_then_sigterm_witness :
    Event.killSent 5 SIGTERM ∈ (scanProc 2 (some SIGTERM) ∅ [pf5]).events :=
  (C1_cancellation_then_sigterm "-1,-1" 7 renvC1 (-1) (-1) envC []
    [(5, "PID 5 (S): sleep")] (by decide) (by decide) (by decide) (by decide)
    (by decide) rfl).2 5 "PID 5 (S): sleep" (by decide)

end Cleanup
